import Mathlib

/-
Verification of the Risk battle-odds calculator (risk.py).

The embedding below translates the Python module into Lean:

  * the six dice-enumeration routines roll32, roll22, roll31, roll21,
    roll12, roll11 become exact rational distributions computed by the
    same nested loops over die faces 1..6 (floats are modelled as exact
    rationals, so every stated probability is exact);
  * the module-level flat list CACHE of size 100*100 with the index
    formula cache_index becomes an association list from effective slot
    (the Python index after negative-index wrap-around) to the stored
    value, together with the Python truthiness test used by the code
    (an entry equal to 0.0 counts as absent);
  * the recursive resolver prob becomes a fuel-indexed function that
    threads the cache explicitly; running out of fuel and an index out
    of the legal Python range [-CACHE_SIZE, CACHE_SIZE) are distinct
    outcomes (Res.outOfFuel, Res.indexError);
  * the Monte-Carlo helpers roll and battle take the random source as a
    stream of die values.
-/

set_option maxRecDepth 1000000

def insertDesc (x : ℕ) : List ℕ → List ℕ
  | [] => [x]
  | y :: ys => if x ≥ y then x :: y :: ys else y :: insertDesc x ys

/-- Model of Python sorted(dice, reverse=True): sort a list of die values
in descending order. -/
def sortDesc (l : List ℕ) : List ℕ := l.foldr insertDesc []

/-- Number of pairwise comparisons won strictly by the attacker after both
sides are sorted in descending order.  This is exactly the bucket used by
the nested if statements of the enumeration routines: for a two-pair shape
the code counts 2, 1 or 0 attacker wins, for a one-pair shape 1 or 0. -/
def pairWins (aDice dDice : List ℕ) : ℕ :=
  ((sortDesc aDice).zip (sortDesc dDice)).countP (fun p => decide (p.2 < p.1))

/-- One Python loop for d in range(1, 7), summing the loop body. -/
def sum6 (f : ℕ → ℕ) : ℕ := f 1 + f 2 + f 3 + f 4 + f 5 + f 6

def count32 (k : ℕ) : ℕ :=
  sum6 (fun a1 => sum6 (fun a2 => sum6 (fun a3 => sum6 (fun d1 => sum6 (fun d2 =>
    if pairWins [a1, a2, a3] [d1, d2] = k then 1 else 0)))))

def total32 : ℕ :=
  sum6 (fun _ => sum6 (fun _ => sum6 (fun _ => sum6 (fun _ => sum6 (fun _ => 1)))))

/-- Embedding of roll32(): probabilities that the attacker loses 0, 1, 2
troops when 3 dice attack 2, by exhaustive enumeration of the 6^5 rolls. -/
def roll32 : ℚ × ℚ × ℚ :=
  (mkRat (count32 2) total32, mkRat (count32 1) total32, mkRat (count32 0) total32)

def count22 (k : ℕ) : ℕ :=
  sum6 (fun a1 => sum6 (fun a2 => sum6 (fun d1 => sum6 (fun d2 =>
    if pairWins [a1, a2] [d1, d2] = k then 1 else 0))))

def total22 : ℕ :=
  sum6 (fun _ => sum6 (fun _ => sum6 (fun _ => sum6 (fun _ => 1))))

/-- Embedding of roll22(): attacker-loss distribution for 2 dice vs 2. -/
def roll22 : ℚ × ℚ × ℚ :=
  (mkRat (count22 2) total22, mkRat (count22 1) total22, mkRat (count22 0) total22)

def count31 (k : ℕ) : ℕ :=
  sum6 (fun a1 => sum6 (fun a2 => sum6 (fun a3 => sum6 (fun d1 =>
    if pairWins [a1, a2, a3] [d1] = k then 1 else 0))))

def total31 : ℕ :=
  sum6 (fun _ => sum6 (fun _ => sum6 (fun _ => sum6 (fun _ => 1))))

/-- Embedding of roll31(): attacker-loss distribution for 3 dice vs 1,
as the pair (attacker loses 0, attacker loses 1). -/
def roll31 : ℚ × ℚ := (mkRat (count31 1) total31, mkRat (count31 0) total31)

def count21 (k : ℕ) : ℕ :=
  sum6 (fun a1 => sum6 (fun a2 => sum6 (fun d1 =>
    if pairWins [a1, a2] [d1] = k then 1 else 0)))

def total21 : ℕ := sum6 (fun _ => sum6 (fun _ => sum6 (fun _ => 1)))

/-- Embedding of roll21(): attacker-loss distribution for 2 dice vs 1. -/
def roll21 : ℚ × ℚ := (mkRat (count21 1) total21, mkRat (count21 0) total21)

def count12 (k : ℕ) : ℕ :=
  sum6 (fun a1 => sum6 (fun d1 => sum6 (fun d2 =>
    if pairWins [a1] [d1, d2] = k then 1 else 0)))

def total12 : ℕ := sum6 (fun _ => sum6 (fun _ => sum6 (fun _ => 1)))

/-- Embedding of roll12(): attacker-loss distribution for 1 die vs 2. -/
def roll12 : ℚ × ℚ := (mkRat (count12 1) total12, mkRat (count12 0) total12)

def count11 (k : ℕ) : ℕ :=
  sum6 (fun a1 => sum6 (fun d1 => if pairWins [a1] [d1] = k then 1 else 0))

def total11 : ℕ := sum6 (fun _ => sum6 (fun _ => 1))

/-- Embedding of roll11(): attacker-loss distribution for 1 die vs 1. -/
def roll11 : ℚ × ℚ := (mkRat (count11 1) total11, mkRat (count11 0) total11)

def MAX_TROOP_CACHE : ℤ := 100

def CACHE_SIZE : ℤ := MAX_TROOP_CACHE * MAX_TROOP_CACHE

/-- Embedding of cache_index(n_attack, n_defend). -/
def cache_index (n_attack n_defend : ℤ) : ℤ :=
  (n_defend - 1) * MAX_TROOP_CACHE + (n_attack - 1)

/-- Model of the module-level list CACHE: an association list from the
effective slot of the Python list (0 ≤ slot < CACHE_SIZE) to the stored
probability.  An absent slot models a None entry. -/
abbrev Cache := List (ℕ × ℚ)

/-- Python list indexing semantics for CACHE: an index i is legal when
-CACHE_SIZE ≤ i < CACHE_SIZE, and a negative legal index wraps around to
i + CACHE_SIZE, which is i mod CACHE_SIZE.  An illegal index raises
IndexError, modelled by none. -/
def slotOf (i : ℤ) : Option ℕ :=
  if -CACHE_SIZE ≤ i ∧ i < CACHE_SIZE then some (i.emod CACHE_SIZE).toNat else none

def lookupSlot (c : Cache) (s : ℕ) : Option ℚ :=
  (c.find? (fun e => e.1 == s)).map Prod.snd

def store (c : Cache) (s : ℕ) (q : ℚ) : Cache := (s, q) :: c

/-- Python truthiness of a CACHE entry: None and 0.0 are falsy, any other
stored float is truthy. -/
def truthy : Option ℚ → Option ℚ
  | some v => if v = 0 then none else some v
  | none => none

/-- Outcome of running a piece of the resolver: a value together with the
cache state after the call, or an IndexError raised by a CACHE access, or
exhaustion of the recursion fuel. -/
inductive Res where
  | ok : ℚ → Cache → Res
  | indexError : Res
  | outOfFuel : Res
deriving DecidableEq

/-- Sequencing: continue with the value and cache of a successful step,
propagate IndexError and fuel exhaustion. -/
def andThen (r : Res) (f : ℚ → Cache → Res) : Res :=
  match r with
  | Res.ok p c => f p c
  | e => e

/-- Embedding of one if CACHE[i]: block of prob: read CACHE[i] (possibly
raising IndexError), use the entry when it is truthy, otherwise run the
recursive call k and write its value back into slot i. -/
def consult (c : Cache) (i : ℤ) (k : Cache → Res) : Res :=
  match slotOf i with
  | none => Res.indexError
  | some s =>
    match truthy (lookupSlot c s) with
    | some v => Res.ok v c
    | none =>
      match k c with
      | Res.ok p c2 => Res.ok p (store c2 s p)
      | e => e

/-- Embedding of prob(n_attack, n_defend): the memoized recursive resolver,
with the recursion made explicit by a fuel parameter and the global CACHE
threaded through.  The branch structure, the order of the three (resp. two)
cache consultations and the final linear combination follow the source
line by line. -/
def prob : ℕ → ℤ → ℤ → Cache → Res
  | 0, _, _, _ => Res.outOfFuel
  | fuel + 1, n_attack, n_defend, c =>
    if n_attack = 0 then Res.ok 0 c
    else if n_defend = 0 then Res.ok 1 c
    else if 2 ≤ min n_attack n_defend then
      andThen (consult c (cache_index n_attack (n_defend - 2))
          (prob fuel n_attack (n_defend - 2))) (fun p_a2 c1 =>
        andThen (consult c1 (cache_index (n_attack - 1) (n_defend - 1))
            (prob fuel (n_attack - 1) (n_defend - 1))) (fun p_a1 c2 =>
          andThen (consult c2 (cache_index (n_attack - 2) n_defend)
              (prob fuel (n_attack - 2) n_defend)) (fun p_a0 c3 =>
            Res.ok ((if 3 ≤ n_attack then roll32 else roll22).1 * p_a2 +
              (if 3 ≤ n_attack then roll32 else roll22).2.1 * p_a1 +
              (if 3 ≤ n_attack then roll32 else roll22).2.2 * p_a0) c3)))
    else
      andThen (consult c (cache_index n_attack (n_defend - 1))
          (prob fuel n_attack (n_defend - 1))) (fun p_a1 c1 =>
        andThen (consult c1 (cache_index (n_attack - 1) n_defend)
            (prob fuel (n_attack - 1) n_defend)) (fun p_a0 c2 =>
          Res.ok ((if 3 ≤ n_attack then roll31
              else if n_attack = 2 then roll21
              else if 2 ≤ n_defend then roll12
              else roll11).1 * p_a1 +
            (if 3 ≤ n_attack then roll31
              else if n_attack = 2 then roll21
              else if 2 ≤ n_defend then roll12
              else roll11).2 * p_a0) c2))

/-- Value returned by a prob call, forgetting the final cache. -/
def probVal (fuel : ℕ) (n_attack n_defend : ℤ) (c : Cache) : Option ℚ :=
  match prob fuel n_attack n_defend c with
  | Res.ok p _ => some p
  | _ => none

/-- Value of a second prob call made after an earlier prob call on the
same process-global cache (starting from the initial all-None cache). -/
def probValAfter (fuel : ℕ) (a1 d1 a2 d2 : ℤ) : Option ℚ :=
  match prob fuel a1 d1 [] with
  | Res.ok _ c => probVal fuel a2 d2 c
  | _ => none

/-- Contents of a given cache slot after a prob call on the initially
empty cache. -/
def cacheSlotAfter (fuel : ℕ) (n_attack n_defend : ℤ) (s : ℕ) : Option ℚ :=
  match prob fuel n_attack n_defend [] with
  | Res.ok _ c => lookupSlot c s
  | _ => none

/-- The pure, cache-free recursion on the same base cases and transition
probabilities as prob (the reference semantics the spec describes for the
resolver; none means the fuel bound was hit). -/
def probPure : ℕ → ℤ → ℤ → Option ℚ
  | 0, _, _ => none
  | fuel + 1, n_attack, n_defend =>
    if n_attack = 0 then some 0
    else if n_defend = 0 then some 1
    else if 2 ≤ min n_attack n_defend then
      let P := if 3 ≤ n_attack then roll32 else roll22
      match probPure fuel n_attack (n_defend - 2),
          probPure fuel (n_attack - 1) (n_defend - 1),
          probPure fuel (n_attack - 2) n_defend with
      | some p_a2, some p_a1, some p_a0 =>
        some (P.1 * p_a2 + P.2.1 * p_a1 + P.2.2 * p_a0)
      | _, _, _ => none
    else
      let P := if 3 ≤ n_attack then roll31
        else if n_attack = 2 then roll21
        else if 2 ≤ n_defend then roll12
        else roll11
      match probPure fuel n_attack (n_defend - 1),
          probPure fuel (n_attack - 1) n_defend with
      | some p_a1, some p_a0 => some (P.1 * p_a1 + P.2 * p_a0)
      | _, _ => none

/-- Strict comparison of two optional probabilities; false unless both
calls returned a value. -/
def oLt (o1 o2 : Option ℚ) : Bool :=
  match o1, o2 with
  | some x, some y => decide (x < y)
  | _, _ => false

/-- Every value stored in the cache lies in [0, 1]. -/
def CacheOK (c : Cache) : Prop :=
  ∀ s q, lookupSlot c s = some q → 0 ≤ q ∧ q ≤ 1

/-- A three-outcome distribution has entries in [0, 1] summing to 1. -/
abbrev distOK3 (t : ℚ × ℚ × ℚ) : Prop :=
  0 ≤ t.1 ∧ t.1 ≤ 1 ∧ 0 ≤ t.2.1 ∧ t.2.1 ≤ 1 ∧ 0 ≤ t.2.2 ∧ t.2.2 ≤ 1 ∧
    t.1 + t.2.1 + t.2.2 = 1

/-- A two-outcome distribution has entries in [0, 1] summing to 1. -/
abbrev distOK2 (t : ℚ × ℚ) : Prop :=
  0 ≤ t.1 ∧ t.1 ≤ 1 ∧ 0 ≤ t.2 ∧ t.2 ≤ 1 ∧ t.1 + t.2 = 1

/-- Embedding of the comparison loop of roll(n_attack, n_defend, rng):
given the drawn dice of both sides, sort each side in descending order,
compare pairwise, and accumulate (troops lost by attacker, troops lost by
defender); the attacker loses the pairing on a tie. -/
def roll_core (attackRoll defendRoll : List ℕ) : ℕ × ℕ :=
  ((sortDesc attackRoll).zip (sortDesc defendRoll)).foldl
    (fun acc p => if p.2 < p.1 then (acc.1, acc.2 + 1) else (acc.1 + 1, acc.2))
    (0, 0)

/-- The n die values drawn from the random stream s starting at draw k. -/
def drawList (s : ℕ → ℕ) (k n : ℕ) : List ℕ := (List.range n).map (fun i => s (k + i))

/-- Embedding of roll(n_attack, n_defend, rng): draw the attacker dice,
then the defender dice, from the stream and run the comparison loop. -/
def roll (n_attack n_defend : ℕ) (s : ℕ → ℕ) (k : ℕ) : ℕ × ℕ :=
  roll_core (drawList s k n_attack) (drawList s (k + n_attack) n_defend)

/-- Embedding of battle(n_attack, n_defend): repeat rounds while both
sides have troops, capping the dice at 3 and 2; when the loop exits,
return the remaining attackers if the defenders are wiped out, else 0.
The loop is driven by fuel; k is the position in the random stream. -/
def battle : ℕ → ℤ → ℤ → (ℕ → ℕ) → ℕ → Option ℤ
  | 0, _, _, _, _ => none
  | fuel + 1, n_attack, n_defend, s, k =>
    if 0 < n_attack ∧ 0 < n_defend then
      battle fuel
        (n_attack - (roll (if 3 < n_attack then 3 else n_attack).toNat
          (if 2 < n_defend then 2 else n_defend).toNat s k).1)
        (n_defend - (roll (if 3 < n_attack then 3 else n_attack).toNat
          (if 2 < n_defend then 2 else n_defend).toNat s k).2)
        s
        (k + (if 3 < n_attack then 3 else n_attack).toNat +
          (if 2 < n_defend then 2 else n_defend).toNat)
    else if n_defend = 0 then some n_attack else some 0

/-- A concrete random stream used to instantiate witness statements. -/
def rngDemo : ℕ → ℕ := fun i => i % 6 + 1

set_option allowUnsafeReducibility true

attribute [semireducible] Rat.add Rat.mul Rat.inv Rat.sub Rat.div

theorem insertDesc_length (x : ℕ) (l : List ℕ) :
    (insertDesc x l).length = l.length + 1 := by
  induction l with
  | nil => rfl
  | cons y ys ih =>
    by_cases h : x ≥ y
    · simp [insertDesc, h]
    · simp [insertDesc, h, ih]

theorem sortDesc_length (l : List ℕ) : (sortDesc l).length = l.length := by
  induction l with
  | nil => rfl
  | cons y ys ih => simp [sortDesc, insertDesc_length] at ih ⊢; omega

theorem foldl_losses (l : List (ℕ × ℕ)) (x y : ℕ) :
    l.foldl (fun acc p => if p.2 < p.1 then (acc.1, acc.2 + 1) else (acc.1 + 1, acc.2)) (x, y)
      = (x + l.countP (fun p => decide (p.1 ≤ p.2)),
         y + l.countP (fun p => decide (p.2 < p.1))) := by
  induction l generalizing x y with
  | nil => simp
  | cons hd tl ih =>
    by_cases h : hd.2 < hd.1
    · have h2 : ¬ hd.1 ≤ hd.2 := by omega
      simp [List.countP_cons, h, h2, ih, Nat.add_assoc, Nat.add_comm]
    · have h2 : hd.1 ≤ hd.2 := by omega
      simp [List.countP_cons, h, h2, ih, Nat.add_assoc, Nat.add_comm]

theorem countP_lt_add_countP_le (l : List (ℕ × ℕ)) :
    l.countP (fun p => decide (p.1 ≤ p.2)) + l.countP (fun p => decide (p.2 < p.1))
      = l.length := by
  induction l with
  | nil => rfl
  | cons hd tl ih =>
    by_cases h : hd.2 < hd.1
    · have h2 : ¬ hd.1 ≤ hd.2 := by omega
      simp [List.countP_cons, h, h2]; omega
    · have h2 : hd.1 ≤ hd.2 := by omega
      simp [List.countP_cons, h, h2]; omega

theorem roll_core_eq (aR dR : List ℕ) :
    roll_core aR dR
      = (((sortDesc aR).zip (sortDesc dR)).countP (fun p => decide (p.1 ≤ p.2)),
         ((sortDesc aR).zip (sortDesc dR)).countP (fun p => decide (p.2 < p.1))) := by
  unfold roll_core
  rw [foldl_losses]
  simp

theorem roll_core_sum (aR dR : List ℕ) :
    (roll_core aR dR).1 + (roll_core aR dR).2 = min aR.length dR.length := by
  rw [roll_core_eq]
  have h := countP_lt_add_countP_le ((sortDesc aR).zip (sortDesc dR))
  simp only [List.length_zip, sortDesc_length] at h
  simpa using h

theorem drawList_length (s : ℕ → ℕ) (k n : ℕ) : (drawList s k n).length = n := by
  simp [drawList]

theorem roll_sum (na nd : ℕ) (s : ℕ → ℕ) (k : ℕ) :
    (roll na nd s k).1 + (roll na nd s k).2 = min na nd := by
  rw [roll, roll_core_sum, drawList_length, drawList_length]

theorem cacheOK_nil : CacheOK [] := by
  intro s q h
  simp [lookupSlot] at h

theorem lookupSlot_store (c : Cache) (s t : ℕ) (q : ℚ) :
    lookupSlot (store c s q) t = if t = s then some q else lookupSlot c t := by
  by_cases h : t = s
  · subst h
    simp [store, lookupSlot]
  · have hb : (s == t) = false := by
      simp [beq_iff_eq]
      omega
    simp [store, lookupSlot, List.find?, hb, h]

theorem store_CacheOK {c : Cache} {s : ℕ} {q : ℚ} (hc : CacheOK c)
    (h0 : 0 ≤ q) (h1 : q ≤ 1) : CacheOK (store c s q) := by
  intro t r h
  rw [lookupSlot_store] at h
  by_cases ht : t = s
  · rw [if_pos ht] at h
    cases h
    exact ⟨h0, h1⟩
  · rw [if_neg ht] at h
    exact hc t r h

theorem truthy_eq_some {o : Option ℚ} {v : ℚ} (h : truthy o = some v) : o = some v := by
  match o with
  | none => simp [truthy] at h
  | some w =>
    by_cases hw : w = 0
    · simp [truthy, hw] at h
    · simp [truthy, hw] at h
      rw [h]

theorem consult_eq_of_slot {i : ℤ} {s : ℕ} (c : Cache) (k : Cache → Res)
    (hs : slotOf i = some s) :
    consult c i k =
      match truthy (lookupSlot c s) with
      | some v => Res.ok v c
      | none =>
        match k c with
        | Res.ok p c2 => Res.ok p (store c2 s p)
        | e => e := by
  unfold consult
  rw [hs]

theorem consult_total (c : Cache) (i : ℤ) (k : Cache → Res)
    (hlo : -CACHE_SIZE ≤ i) (hhi : i < CACHE_SIZE) (hc : CacheOK c)
    (hk : ∀ c', CacheOK c' →
      ∃ p c2, k c' = Res.ok p c2 ∧ (0 ≤ p ∧ p ≤ 1) ∧ CacheOK c2) :
    ∃ p c2, consult c i k = Res.ok p c2 ∧ (0 ≤ p ∧ p ≤ 1) ∧ CacheOK c2 := by
  have hs : slotOf i = some (i.emod CACHE_SIZE).toNat := by
    rw [slotOf, if_pos ⟨hlo, hhi⟩]
  rw [consult_eq_of_slot c k hs]
  cases htr : truthy (lookupSlot c (i.emod CACHE_SIZE).toNat) with
  | some v =>
    exact ⟨v, c, rfl, hc _ _ (truthy_eq_some htr), hc⟩
  | none =>
    obtain ⟨p, c2, hk2, hb, hc2⟩ := hk c hc
    rw [hk2]
    exact ⟨p, store c2 _ p, rfl, hb, store_CacheOK hc2 hb.1 hb.2⟩

theorem convex3 {c0 c1 c2 x y z : ℚ} (h0 : 0 ≤ c0) (h1 : 0 ≤ c1) (h2 : 0 ≤ c2)
    (hs : c0 + c1 + c2 = 1) (hx0 : 0 ≤ x) (hx1 : x ≤ 1) (hy0 : 0 ≤ y) (hy1 : y ≤ 1)
    (hz0 : 0 ≤ z) (hz1 : z ≤ 1) :
    0 ≤ c0 * x + c1 * y + c2 * z ∧ c0 * x + c1 * y + c2 * z ≤ 1 := by
  constructor
  · have := mul_nonneg h0 hx0
    have := mul_nonneg h1 hy0
    have := mul_nonneg h2 hz0
    linarith
  · have := mul_le_mul_of_nonneg_left hx1 h0
    have := mul_le_mul_of_nonneg_left hy1 h1
    have := mul_le_mul_of_nonneg_left hz1 h2
    linarith

theorem convex2 {c0 c1 x y : ℚ} (h0 : 0 ≤ c0) (h1 : 0 ≤ c1)
    (hs : c0 + c1 = 1) (hx0 : 0 ≤ x) (hx1 : x ≤ 1) (hy0 : 0 ≤ y) (hy1 : y ≤ 1) :
    0 ≤ c0 * x + c1 * y ∧ c0 * x + c1 * y ≤ 1 := by
  constructor
  · have := mul_nonneg h0 hx0
    have := mul_nonneg h1 hy0
    linarith
  · have := mul_le_mul_of_nonneg_left hx1 h0
    have := mul_le_mul_of_nonneg_left hy1 h1
    linarith

theorem roll32_comp : distOK3 roll32 := by decide

theorem roll22_comp : distOK3 roll22 := by decide

theorem roll31_comp : distOK2 roll31 := by decide

theorem roll21_comp : distOK2 roll21 := by decide

theorem roll12_comp : distOK2 roll12 := by decide

theorem roll11_comp : distOK2 roll11 := by decide

theorem cache_index_bounds {a d : ℤ} (ha0 : 0 ≤ a) (ha : a ≤ 100)
    (hd0 : 0 ≤ d) (hd : d ≤ 100) :
    -CACHE_SIZE ≤ cache_index a d ∧ cache_index a d < CACHE_SIZE := by
  unfold cache_index CACHE_SIZE MAX_TROOP_CACHE
  omega

theorem prob_total (fuel : ℕ) :
    ∀ (na nd : ℤ) (c : Cache), 0 ≤ na → na ≤ 100 → 0 ≤ nd → nd ≤ 100 →
      na + nd < (fuel : ℤ) → CacheOK c →
      ∃ p c2, prob fuel na nd c = Res.ok p c2 ∧ (0 ≤ p ∧ p ≤ 1) ∧ CacheOK c2 := by
  induction fuel with
  | zero =>
    intro na nd c h1 h2 h3 h4 hf hc
    exfalso
    push_cast at hf
    omega
  | succ n ih =>
    intro na nd c h1 h2 h3 h4 hf hc
    push_cast at hf
    by_cases hA : na = 0
    · subst hA
      exact ⟨0, c, by simp [prob], by norm_num, hc⟩
    by_cases hD : nd = 0
    · subst hD
      refine ⟨1, c, ?_, by norm_num, hc⟩
      simp [prob, hA]
    by_cases hmin : 2 ≤ min na nd
    · -- two-pair branch: both sides commit two dice
      have hna2 : 2 ≤ na := le_trans hmin (min_le_left na nd)
      have hnd2 : 2 ≤ nd := le_trans hmin (min_le_right na nd)
      have hb2 := cache_index_bounds (a := na) (d := nd - 2)
        (by omega) (by omega) (by omega) (by omega)
      obtain ⟨p2, c1, he2, hq2, hc1⟩ :=
        consult_total c (cache_index na (nd - 2)) (prob n na (nd - 2))
          hb2.1 hb2.2 hc
          (fun c' hc' => ih na (nd - 2) c' (by omega) (by omega) (by omega)
            (by omega) (by omega) hc')
      have hb1 := cache_index_bounds (a := na - 1) (d := nd - 1)
        (by omega) (by omega) (by omega) (by omega)
      obtain ⟨p1, c2, he1, hq1, hc2⟩ :=
        consult_total c1 (cache_index (na - 1) (nd - 1)) (prob n (na - 1) (nd - 1))
          hb1.1 hb1.2 hc1
          (fun c' hc' => ih (na - 1) (nd - 1) c' (by omega) (by omega) (by omega)
            (by omega) (by omega) hc')
      have hb0 := cache_index_bounds (a := na - 2) (d := nd)
        (by omega) (by omega) (by omega) (by omega)
      obtain ⟨p0, c3, he0, hq0, hc3⟩ :=
        consult_total c2 (cache_index (na - 2) nd) (prob n (na - 2) nd)
          hb0.1 hb0.2 hc2
          (fun c' hc' => ih (na - 2) nd c' (by omega) (by omega) (by omega)
            (by omega) (by omega) hc')
      refine ⟨(if 3 ≤ na then roll32 else roll22).1 * p2 +
          (if 3 ≤ na then roll32 else roll22).2.1 * p1 +
          (if 3 ≤ na then roll32 else roll22).2.2 * p0, c3, ?_, ?_, hc3⟩
      · simp only [prob]
        rw [if_neg hA, if_neg hD, if_pos hmin, he2]
        simp only [andThen]
        rw [he1]
        simp only [andThen]
        rw [he0]
      · by_cases h3 : 3 ≤ na
        · rw [if_pos h3]
          obtain ⟨t0, t1, t2, t3, t4, t5, t6⟩ := roll32_comp
          exact convex3 t0 t2 t4 t6 hq2.1 hq2.2 hq1.1 hq1.2 hq0.1 hq0.2
        · rw [if_neg h3]
          obtain ⟨t0, t1, t2, t3, t4, t5, t6⟩ := roll22_comp
          exact convex3 t0 t2 t4 t6 hq2.1 hq2.2 hq1.1 hq1.2 hq0.1 hq0.2
    · -- one-pair branch: a single pair of dice is compared
      have hna1 : 1 ≤ na := by omega
      have hnd1 : 1 ≤ nd := by omega
      have hb1 := cache_index_bounds (a := na) (d := nd - 1)
        (by omega) (by omega) (by omega) (by omega)
      obtain ⟨p1, c1, he1, hq1, hc1⟩ :=
        consult_total c (cache_index na (nd - 1)) (prob n na (nd - 1))
          hb1.1 hb1.2 hc
          (fun c' hc' => ih na (nd - 1) c' (by omega) (by omega) (by omega)
            (by omega) (by omega) hc')
      have hb0 := cache_index_bounds (a := na - 1) (d := nd)
        (by omega) (by omega) (by omega) (by omega)
      obtain ⟨p0, c2, he0, hq0, hc2⟩ :=
        consult_total c1 (cache_index (na - 1) nd) (prob n (na - 1) nd)
          hb0.1 hb0.2 hc1
          (fun c' hc' => ih (na - 1) nd c' (by omega) (by omega) (by omega)
            (by omega) (by omega) hc')
      refine ⟨(if 3 ≤ na then roll31
          else if na = 2 then roll21
          else if 2 ≤ nd then roll12
          else roll11).1 * p1 +
          (if 3 ≤ na then roll31
          else if na = 2 then roll21
          else if 2 ≤ nd then roll12
          else roll11).2 * p0, c2, ?_, ?_, hc2⟩
      · simp only [prob]
        rw [if_neg hA, if_neg hD, if_neg hmin, he1]
        simp only [andThen]
        rw [he0]
      · by_cases h3 : 3 ≤ na
        · rw [if_pos h3]
          obtain ⟨t0, t1, t2, t3, t4⟩ := roll31_comp
          exact convex2 t0 t2 t4 hq1.1 hq1.2 hq0.1 hq0.2
        · rw [if_neg h3]
          by_cases h2a : na = 2
          · rw [if_pos h2a]
            obtain ⟨t0, t1, t2, t3, t4⟩ := roll21_comp
            exact convex2 t0 t2 t4 hq1.1 hq1.2 hq0.1 hq0.2
          · rw [if_neg h2a]
            by_cases hd2 : 2 ≤ nd
            · rw [if_pos hd2]
              obtain ⟨t0, t1, t2, t3, t4⟩ := roll12_comp
              exact convex2 t0 t2 t4 hq1.1 hq1.2 hq0.1 hq0.2
            · rw [if_neg hd2]
              obtain ⟨t0, t1, t2, t3, t4⟩ := roll11_comp
              exact convex2 t0 t2 t4 hq1.1 hq1.2 hq0.1 hq0.2

theorem battle_total (fuel : ℕ) :
    ∀ (na nd : ℤ) (s : ℕ → ℕ) (k : ℕ), 0 ≤ na → 0 ≤ nd →
      na + nd ≤ (fuel : ℤ) → 1 ≤ fuel →
      ∃ r, battle fuel na nd s k = some r ∧ 0 ≤ r ∧ r ≤ na := by
  induction fuel with
  | zero =>
    intro na nd s k h1 h2 hf hp
    omega
  | succ n ih =>
    intro na nd s k h1 h2 hf hp
    push_cast at hf
    by_cases hcond : 0 < na ∧ 0 < nd
    · obtain ⟨hna, hnd⟩ := hcond
      have hA1 : 1 ≤ (if 3 < na then 3 else na).toNat := by split_ifs <;> omega
      have hA2 : (((if 3 < na then 3 else na).toNat : ℤ)) ≤ na := by
        split_ifs <;> omega
      have hD1 : 1 ≤ (if 2 < nd then 2 else nd).toNat := by split_ifs <;> omega
      have hD2 : (((if 2 < nd then 2 else nd).toNat : ℤ)) ≤ nd := by
        split_ifs <;> omega
      have hsum := roll_sum (if 3 < na then 3 else na).toNat
        (if 2 < nd then 2 else nd).toNat s k
      have haL : ((roll (if 3 < na then 3 else na).toNat
          (if 2 < nd then 2 else nd).toNat s k).1 : ℤ)
          + ((roll (if 3 < na then 3 else na).toNat
          (if 2 < nd then 2 else nd).toNat s k).2 : ℤ)
          = min (((if 3 < na then 3 else na).toNat : ℤ))
            (((if 2 < nd then 2 else nd).toNat : ℤ)) := by
        omega
      obtain ⟨r, hr, hr0, hrle⟩ := ih
        (na - (roll (if 3 < na then 3 else na).toNat
          (if 2 < nd then 2 else nd).toNat s k).1)
        (nd - (roll (if 3 < na then 3 else na).toNat
          (if 2 < nd then 2 else nd).toNat s k).2)
        s
        (k + (if 3 < na then 3 else na).toNat + (if 2 < nd then 2 else nd).toNat)
        (by omega) (by omega) (by omega) (by omega)
      refine ⟨r, ?_, hr0, by omega⟩
      simp only [battle]
      rw [if_pos ⟨hna, hnd⟩]
      exact hr
    · by_cases hnd0 : nd = 0
      · refine ⟨na, ?_, h1, le_refl na⟩
        simp only [battle]
        rw [if_neg hcond, if_pos hnd0]
      · refine ⟨0, ?_, le_refl 0, h1⟩
        simp only [battle]
        rw [if_neg hcond, if_neg hnd0]

set_option maxHeartbeats 64000000

/-- Claim C1: for every defenders d at least 0, win_probability(0, d) returns 0.0;
for every attackers a above 0, win_probability(a, 0) returns 1.0; in the special
case a = 0, d = 0 the attacker check fires first, so the result is 0.0 (defender
wins by default).  The conclusion holds for one unit of fuel and returns the
cache unchanged, which is the formal statement that the base cases are decided
before any distribution is selected, any cache slot is touched, or any
recursion occurs. -/
theorem prob_base_cases :
    (∀ (d : ℤ) (c : Cache) (fuel : ℕ), 0 ≤ d → prob (fuel + 1) 0 d c = Res.ok 0 c) ∧
    (∀ (a : ℤ) (c : Cache) (fuel : ℕ), 0 < a → prob (fuel + 1) a 0 c = Res.ok 1 c) ∧
    (∀ (c : Cache) (fuel : ℕ), prob (fuel + 1) 0 0 c = Res.ok 0 c) := by
  refine ⟨?_, ?_, ?_⟩
  · intro d c fuel _
    simp [prob]
  · intro a c fuel ha
    have hne : a ≠ 0 := by omega
    simp [prob, hne]
  · intro c fuel
    simp [prob]

/-- Witness for claim C1 at d = 7, a = 4 and the origin, with fuel 1 and the
initial empty cache. -/
theorem prob_base_cases_witness :
    prob 1 0 7 [] = Res.ok 0 [] ∧ prob 1 4 0 [] = Res.ok 1 [] ∧
    prob 1 0 0 [] = Res.ok 0 [] :=
  ⟨prob_base_cases.1 7 [] 0 (by decide), prob_base_cases.2.1 4 [] 0 (by decide),
    prob_base_cases.2.2 [] 0⟩

/-- Claim C5: for each of the six roll shapes, the enumerated outcome
distribution consists of values in [0, 1] that sum to exactly 1 (hence
certainly within the 1e-9 floating-point tolerance of the claim; the
embedding computes the same integer counts as the source and divides
exactly). -/
theorem roll_distributions_normalized :
    distOK3 roll32 ∧ distOK3 roll22 ∧ distOK2 roll31 ∧ distOK2 roll21 ∧
    distOK2 roll12 ∧ distOK2 roll11 :=
  ⟨roll32_comp, roll22_comp, roll31_comp, roll21_comp, roll12_comp, roll11_comp⟩

/-- Claim C6: for attacker dice counts 1..3 and defender dice counts 1..2 and
any drawn dice values, the single-round comparator returns
(attacker losses, defender losses) where the defender losses are exactly the
positions of the descending-sorted zip where the attacker die is strictly
greater, the attacker losses are exactly the remaining compared positions
(ties included), and the two add up to min(attacker count, defender count). -/
theorem roll_losses_pairwise (aR dR : List ℕ)
    (ha1 : 1 ≤ aR.length) (ha3 : aR.length ≤ 3)
    (hd1 : 1 ≤ dR.length) (hd2 : dR.length ≤ 2) :
    (roll_core aR dR).2
        = ((sortDesc aR).zip (sortDesc dR)).countP (fun p => decide (p.2 < p.1)) ∧
    (roll_core aR dR).1
        = ((sortDesc aR).zip (sortDesc dR)).countP (fun p => decide (p.1 ≤ p.2)) ∧
    (roll_core aR dR).1 + (roll_core aR dR).2 = min aR.length dR.length := by
  refine ⟨?_, ?_, roll_core_sum aR dR⟩ <;> rw [roll_core_eq]

/-- Witness for claim C6 on the concrete rolls [3, 5, 2] against [4, 5]. -/
theorem roll_losses_pairwise_witness :
    (roll_core [3, 5, 2] [4, 5]).2
        = ((sortDesc [3, 5, 2]).zip (sortDesc [4, 5])).countP
            (fun p => decide (p.2 < p.1)) ∧
    (roll_core [3, 5, 2] [4, 5]).1
        = ((sortDesc [3, 5, 2]).zip (sortDesc [4, 5])).countP
            (fun p => decide (p.1 ≤ p.2)) ∧
    (roll_core [3, 5, 2] [4, 5]).1 + (roll_core [3, 5, 2] [4, 5]).2
        = min (List.length [3, 5, 2]) (List.length [4, 5]) :=
  roll_losses_pairwise [3, 5, 2] [4, 5] (by decide) (by decide) (by decide) (by decide)

/-- Claim C7: win_probability(1, 1) equals 15/36, which is the count, among
the 36 equally likely face pairs, of pairs where the single attacker die
strictly exceeds the single defender die, divided by 36. -/
theorem win_probability_one_one :
    probVal 2 1 1 [] = some (mkRat 15 36) ∧
    probVal 2 1 1 [] = some (mkRat (count11 1) total11) ∧
    count11 1 = 15 ∧ total11 = 36 := by decide

/-- Claim C10: for positive troop counts and any stream of die draws, the
battle simulator terminates within attackers plus defenders rounds and
returns a remaining attacker count between 0 and the original attacker
count (0 exactly when the defender won). -/
theorem battle_terminates_and_bounded (n_attack n_defend : ℤ) (s : ℕ → ℕ) (k : ℕ)
    (ha : 0 < n_attack) (hd : 0 < n_defend) :
    ∃ r, battle (n_attack + n_defend).toNat n_attack n_defend s k = some r ∧
      0 ≤ r ∧ r ≤ n_attack :=
  battle_total (n_attack + n_defend).toNat n_attack n_defend s k
    (by omega) (by omega) (by omega) (by omega)

/-- Witness for claim C10: a battle of 5 attackers against 3 defenders with a
concrete die stream. -/
theorem battle_terminates_and_bounded_witness :
    ∃ r, battle ((5 : ℤ) + 3).toNat 5 3 rngDemo 0 = some r ∧ 0 ≤ r ∧ r ≤ 5 :=
  battle_terminates_and_bounded 5 3 rngDemo 0 (by decide) (by decide)

/-- Claim C8, counterexample: the claim asserts totality for every
attackers at least 0 and defenders at least 0, but the call
win_probability(1, 102) immediately evaluates CACHE[cache_index(1, 101)]
= CACHE[10000], an index one past the end of the 10000-element list, and
raises IndexError; no amount of fuel changes this, as the two fuel values
show. -/
theorem prob_index_error_beyond_capacity :
    prob 2 1 102 [] = Res.indexError ∧ prob 150 1 102 [] = Res.indexError := by
  decide

/-- Claim C8, amended: for troop counts within the cache capacity
(0 ≤ attackers ≤ 100 and 0 ≤ defenders ≤ 100), starting from the initial
empty cache, the resolver completes within attackers + defenders + 1
nested calls (every recursive sub-call strictly decreases the troop total,
which is what makes this fuel bound sufficient), raises no runtime fault,
and returns a probability in [0, 1]. -/
theorem prob_total_within_capacity (n_attack n_defend : ℤ)
    (h1 : 0 ≤ n_attack) (h2 : n_attack ≤ 100)
    (h3 : 0 ≤ n_defend) (h4 : n_defend ≤ 100) :
    ∃ p c2, prob ((n_attack + n_defend).toNat + 1) n_attack n_defend []
      = Res.ok p c2 ∧ 0 ≤ p ∧ p ≤ 1 := by
  obtain ⟨p, c2, he, hb, _⟩ :=
    prob_total ((n_attack + n_defend).toNat + 1) n_attack n_defend []
      h1 h2 h3 h4 (by omega) cacheOK_nil
  exact ⟨p, c2, he, hb.1, hb.2⟩

/-- Witness for the amended claim C8 at attackers 2, defenders 2. -/
theorem prob_total_within_capacity_witness :
    ∃ p c2, prob (((2 : ℤ) + 2).toNat + 1) 2 2 [] = Res.ok p c2 ∧ 0 ≤ p ∧ p ≤ 1 :=
  prob_total_within_capacity 2 2 (by decide) (by decide) (by decide) (by decide)

/-- Claim C9: the claim says a call with a negative troop count is rejected
with an input-validation error before any recursion.  The code has no such
validation: win_probability(-1, 1) recurses through roughly one hundred
states (-k, 1), each write for the base state (-k, 0) landing in a wrapped
cache slot, until a read of one of those polluted slots terminates the
descent, and the call returns 1.0 as if the attacker were certain to win;
at fuel 50 the call is still recursing (more than 49 nested calls deep),
refuting fail-fast behavior.  A call with a negative defender count,
win_probability(1, -1), recurses about one hundred levels and then raises
IndexError when cache_index(1, -100) = -10100 falls below -CACHE_SIZE. -/
theorem prob_negative_input_not_rejected :
    probVal 150 (-1) 1 [] = some 1 ∧
    prob 50 (-1) 1 [] = Res.outOfFuel ∧
    prob 150 1 (-1) [] = Res.indexError ∧
    prob 50 1 (-1) [] = Res.outOfFuel := by
  decide

/-- Claim C3: the claim asserts that every cache write lands in the slot of
its own state, in particular, that the write for a base sub-state (a, 0) is
harmless.  In fact cache_index(1, 0) = -100, which Python wraps to slot
9900, and slot 9900 is exactly cache_index(1, 100), the slot reserved for
state (1, 100): after the very first call win_probability(1, 1), slot 9900
holds 1.0, whereas the true win probability of state (1, 100), computed by
the pure recursion, is (55/216)^99 * (5/12), which is not 1. -/
theorem cache_write_aliases_foreign_slot :
    cache_index 1 0 = -100 ∧
    slotOf (cache_index 1 0) = some 9900 ∧
    slotOf (cache_index 1 100) = some 9900 ∧
    cacheSlotAfter 5 1 1 9900 = some 1 ∧
    probPure 120 1 100 = some (mkRat 55 216 ^ 99 * mkRat 5 12) ∧
    (mkRat 55 216 ^ 99 * mkRat 5 12 : ℚ) ≠ 1 := by
  decide

/-- Claim C2: the claim asserts that the result with an empty cache equals
the result with any cache state reachable from prior calls, and that the
memoized resolver agrees with the pure cache-free recursion.  Both fail:
after the prior call win_probability(1, 1) has polluted slot 9900 (the slot
of state (1, 100)) with 1.0, the call win_probability(1, 101) reads that
slot as its sub-state (1, 100) and returns 55/216, while the same call on
an empty cache, and the pure recursion, both return
(55/216)^100 * (5/12), a value smaller than 10^-60. -/
theorem memoization_not_transparent :
    probValAfter 150 1 1 1 101 = some (mkRat 55 216) ∧
    probVal 150 1 101 [] = some (mkRat 55 216 ^ 100 * mkRat 5 12) ∧
    probPure 150 1 101 = some (mkRat 55 216 ^ 100 * mkRat 5 12) ∧
    mkRat 55 216 ≠ mkRat 55 216 ^ 100 * mkRat 5 12 := by
  decide

/-- Claim C4: the claim asserts that win_probability is non-increasing in
the defender count.  The cache aliasing of claim C3 breaks this at the
capacity boundary: on a fresh cache, win_probability(3, 100) reads the
polluted slot of sub-state (1, 100) as 1.0 and returns a value around 0.29,
strictly greater than win_probability(3, 99), which is astronomically
small, so P(3, 99) < P(3, 100) where the claim requires
P(3, 99) at least P(3, 100). -/
theorem win_prob_not_monotone_in_defenders :
    oLt (probVal 150 3 99 []) (probVal 150 3 100 []) = true := by
  decide
